import Mathlib

/-!
Verification development for the tutoring-portal application `app.py`
(single-file Flask application, SQLite/Postgres dual backend).

The definitions below are a shallow embedding of the authorization core:

* the `users` / `admin_licenses` / `audit_logs` / `questions` /
  `assignment_submissions` tables (projected onto the columns the modelled
  code consults),
* the request-scoped state (Flask `session` and `g`),
* `get_admin_user`, `get_admin_license_map`, `has_license`,
  `admin_can_access`, `ensure_admin_license_rows`, `log_admin_action`,
  `admin_update_account`, `admin_register`, `fetch_questions_for_student`,
  the `POST` bodies of `tutoring_assignments` / `admin_assignments`
  (submission upsert / update), and the backend-comparison model for the
  persistence adapter's `lastrowid` semantics.

Stateful Python code is embedded as explicit state passing on `ReqState`;
SQL statements are embedded by their row-level effect on the Lean lists that
stand for the tables.  Fallible code returns `Except PyError`: in
particular `get_admin_license_map` raises `TypeError` on every cache miss
(its cache store `g[cache_key] = license_map` is an item assignment on
Flask's `g`, which supports none), and `has_license` / `admin_can_access`
propagate that exception.
-/

namespace FirstWeb

/-- `LICENSE_MENUS` from `app.py`: the fixed list of (menu key, label) pairs
gating the admin portal. -/
def LICENSE_MENUS : List (String × String) :=
  [("qna", "Q&A"),
   ("assignments", "Assignments"),
   ("scores", "Scores"),
   ("notices", "Notices"),
   ("student_accounts", "Student Accounts")]

/-- The five tracked menu keys (first components of `LICENSE_MENUS`). -/
def LICENSE_MENU_KEYS : List String := LICENSE_MENUS.map Prod.fst

/-- A row of the `users` table, projected onto the columns the authorization
core and the modelled handlers consult (`id`, `username`, `role`,
`approved`).  `approved` is the SQLite integer flag (`CHECK (approved IN (0,1))`). -/
structure UserRow where
  id : Nat
  username : String
  role : String
  approved : Int
  deriving Repr, DecidableEq

/-- A row of the `admin_licenses` table:
`(id, admin_id, menu_key, is_enabled)` with `is_enabled ∈ {0,1}` enforced by
a CHECK constraint and `UNIQUE (admin_id, menu_key)`. -/
structure LicenseRow where
  id : Nat
  admin_id : Nat
  menu_key : String
  is_enabled : Int
  deriving Repr, DecidableEq

/-- A row of the `audit_logs` table (the `created_at` column, filled by the
database default, is not modelled). -/
structure AuditRow where
  id : Nat
  actor_admin_id : Option Nat
  menu_key : String
  action_type : String
  target_type : String
  target_id : Option Int
  detail : String
  deriving Repr, DecidableEq

/-- A row of the `questions` table, projected onto the columns that
`fetch_questions_for_student` filters and orders by. -/
structure QuestionRow where
  id : Nat
  student_id : Nat
  is_public : Int
  created_at : String
  deriving Repr, DecidableEq

/-- A row of the `assignment_submissions` table (the `updated_at` column,
filled by `CURRENT_TIMESTAMP`, is not modelled). -/
structure SubmissionRow where
  id : Int
  assignment_id : Int
  student_id : Nat
  content : String
  progress : Int
  status : String
  deriving Repr, DecidableEq

/-- The database state.  Each autoincrement table carries its next fresh id.
For `assignments` only the `id` column is consulted by the modelled code
(`SELECT id FROM assignments WHERE id = ?`), so the table is the list of ids. -/
structure DB where
  users : List UserRow
  admin_licenses : List LicenseRow
  questions : List QuestionRow
  assignments : List Int
  assignment_submissions : List SubmissionRow
  audit_logs : List AuditRow
  nextUserId : Nat
  nextLicenseId : Nat
  nextAuditId : Nat
  nextSubmissionId : Int
  deriving Repr, DecidableEq

/-- The request-scoped state: the database, the `admin_id` stored in the
Flask `session`, the memoized `g.admin_user` slot (`none` = attribute absent,
`some none` = cached "no admin"), and the `g` entries
`admin_license_map_<adminId>` as an association list keyed by admin id.
The cache list is read by `g.get` and popped by `g.pop` (both exist on
Flask's `g`), but the program's only write to it — the item assignment
`g[cache_key] = license_map` — raises `TypeError` (Flask's `g` supports no
item assignment), so in every reachable state this list is empty. -/
structure ReqState where
  db : DB
  sessionAdminId : Option Nat
  gAdminUser : Option (Option UserRow)
  gLicenseCache : List (Nat × List (String × Int))
  deriving Repr, DecidableEq

/-- A Python exception surfaced by the modelled code: the `TypeError`
raised by item assignment on Flask's `g` (`_AppCtxGlobals` defines
`get`/`pop`/`setdefault`/`__contains__` and attribute access, but no
`__setitem__`). -/
inductive PyError where
  | typeError : PyError
  deriving Repr, DecidableEq

/-- The SQL query inside `get_admin_license_map`, plus the dict comprehension
`{row["menu_key"]: row["is_enabled"] for row in rows}`: the license rows of
one admin as an association list `menu_key ↦ is_enabled`.  (The Python dict
keeps the last duplicate key while `List.lookup` keeps the first; under the
table's `UNIQUE (admin_id, menu_key)` constraint there are no duplicates.) -/
def licenseMapOfList (rows : List LicenseRow) (adminId : Nat) :
    List (String × Int) :=
  (rows.filter (fun r => r.admin_id == adminId)).map
    (fun r => (r.menu_key, r.is_enabled))

/-- `licenseMapOfList` applied to the stored table. -/
def licenseMapOfDb (db : DB) (adminId : Nat) : List (String × Int) :=
  licenseMapOfList db.admin_licenses adminId

/-- `get_admin_license_map(admin_id)` from `app.py`: return the cached map
when `g.get(cache_key)` finds one; otherwise query storage, build the dict,
and then execute `g[cache_key] = license_map` — an item assignment on
Flask's `g`, which has no `__setitem__`, so the function raises `TypeError`
instead of returning.  (The storage query and the dict comprehension run
before the raise; `_license_map` records them.  The cache-hit branch is
faithful to the code text but unreachable, since this raise means the cache
is never populated.) -/
def get_admin_license_map (adminId : Nat) (st : ReqState) :
    Except PyError (List (String × Int) × ReqState) :=
  match st.gLicenseCache.lookup adminId with
  | some cached => .ok (cached, st)
  | none =>
      let _license_map := licenseMapOfDb st.db adminId
      .error .typeError

/-- `has_license(admin_id, menu_key)` from `app.py`:
`bool(license_map.get(menu_key, 0) == 1)`; propagates the `TypeError`
raised inside `get_admin_license_map`. -/
def has_license (adminId : Nat) (menuKey : String) (st : ReqState) :
    Except PyError (Bool × ReqState) :=
  match get_admin_license_map adminId st with
  | .error e => .error e
  | .ok (m, st1) => .ok (((m.lookup menuKey).getD 0 == 1), st1)

/-- The SQL lookup inside `get_admin_user`:
`SELECT * FROM users WHERE id = ? AND role IN ('admin', 'super_admin')`. -/
def findAdminUser (db : DB) (adminId : Nat) : Option UserRow :=
  db.users.find?
    (fun u => u.id == adminId && (u.role == "admin" || u.role == "super_admin"))

/-- `get_admin_user()` from `app.py`: memoized in `g.admin_user`; resolves the
session's `admin_id` against the `users` table filtered to admin roles. -/
def get_admin_user (st : ReqState) : Option UserRow × ReqState :=
  match st.gAdminUser with
  | some cached => (cached, st)
  | none =>
      match st.sessionAdminId with
      | none => (none, { st with gAdminUser := some none })
      | some adminId =>
          let u := findAdminUser st.db adminId
          (u, { st with gAdminUser := some u })

/-- `admin_can_access(menu_key)` from `app.py`: deny when no admin resolves;
always allow super_admin; deny unapproved admins; otherwise consult
`has_license` — whose `TypeError` (raised on every cache miss) propagates
out of this function. -/
def admin_can_access (menuKey : String) (st : ReqState) :
    Except PyError (Bool × ReqState) :=
  match get_admin_user st with
  | (none, st1) => .ok (false, st1)
  | (some a, st1) =>
      if a.role == "super_admin" then .ok (true, st1)
      else if a.approved != 1 then .ok (false, st1)
      else has_license a.id menuKey st1

/-- Row-level effect of
`INSERT OR IGNORE INTO admin_licenses (admin_id, menu_key, is_enabled)
VALUES (?, ?, 0)`: a no-op when a row with the same `(admin_id, menu_key)`
unique key exists, otherwise append a fresh row with `is_enabled = 0`. -/
def insertLicenseIfAbsent (adminId : Nat) (menuKey : String) (db : DB) : DB :=
  if db.admin_licenses.any
      (fun r => r.admin_id == adminId && r.menu_key == menuKey) then db
  else
    { db with
        admin_licenses :=
          db.admin_licenses ++ [⟨db.nextLicenseId, adminId, menuKey, 0⟩],
        nextLicenseId := db.nextLicenseId + 1 }

/-- `ensure_admin_license_rows(admin_id)` from `app.py`: one conflict-tolerant
insert per entry of `LICENSE_MENUS`. -/
def ensure_admin_license_rows (adminId : Nat) (db : DB) : DB :=
  LICENSE_MENUS.foldl (fun acc p => insertLicenseIfAbsent adminId p.1 acc) db

/-- `log_admin_action(menu_key, action_type, target_type, target_id, detail)`
from `app.py`: return silently when no admin resolves, otherwise insert one
`audit_logs` row with the resolved admin as actor and commit. -/
def log_admin_action (menuKey actionType targetType : String)
    (targetId : Option Int) (detail : String) (st : ReqState) : ReqState :=
  match get_admin_user st with
  | (none, st1) => st1
  | (some a, st1) =>
      { st1 with
          db := { st1.db with
                    audit_logs :=
                      st1.db.audit_logs ++
                        [⟨st1.db.nextAuditId, some a.id, menuKey, actionType,
                           targetType, targetId, detail⟩],
                    nextAuditId := st1.db.nextAuditId + 1 } }

/-- Row-level effect of
`UPDATE admin_licenses SET is_enabled = ? WHERE admin_id = ? AND menu_key = ?`. -/
def sqlUpdateLicense (targetId : Nat) (menuKey : String) (enabled : Int)
    (db : DB) : DB :=
  { db with
      admin_licenses :=
        db.admin_licenses.map
          (fun r =>
            if r.admin_id == targetId && r.menu_key == menuKey then
              { r with is_enabled := enabled }
            else r) }

/-- The license-update loop of `admin_update_account`: for each menu key of
`LICENSE_MENUS`, write `1` when the form checkbox `license_<menu_key>` is
`"on"`, else `0`. -/
def updateAllLicenses (targetId : Nat) (licenseOn : String → Bool) (db : DB) :
    DB :=
  LICENSE_MENUS.foldl
    (fun acc p =>
      sqlUpdateLicense targetId p.1 (if licenseOn p.1 then 1 else 0) acc)
    db

/-- The body of the `admin_update_account` route handler (the super-admin
license/approval update), after its `super_admin_only` guard: look up the
target admin (`role = 'admin'`); if absent, only flash and redirect; otherwise
update `approved`, run `ensure_admin_license_rows`, write each license flag
from the form, commit, pop the `g` cache entry
`admin_license_map_<target_admin_id>`, and record an audit entry.  The form is
abstracted by `approvedOn` (checkbox `approved == "on"`) and
`licenseOn` (checkbox `license_<menu_key> == "on"`). -/
def admin_update_account (targetAdminId : Nat) (approvedOn : Bool)
    (licenseOn : String → Bool) (st : ReqState) : ReqState :=
  match st.db.users.find?
      (fun u => u.id == targetAdminId && u.role == "admin") with
  | none => st
  | some target =>
      let approved : Int := if approvedOn then 1 else 0
      let db1 :=
        { st.db with
            users := st.db.users.map
              (fun u =>
                if u.id == targetAdminId then { u with approved := approved }
                else u) }
      let db2 := ensure_admin_license_rows targetAdminId db1
      let db3 := updateAllLicenses targetAdminId licenseOn db2
      let st1 :=
        { st with
            db := db3,
            gLicenseCache :=
              st.gLicenseCache.filter (fun e => e.1 != targetAdminId) }
      log_admin_action "student_accounts" "license_update" "admin_account"
        (some (Int.ofNat targetAdminId))
        (target.username ++ " state:" ++
          (if approvedOn then "approved" else "pending"))
        st1

/-- Python `str.strip()` (on ASCII whitespace, which is all the claims
need): drop leading and trailing whitespace characters.  Implemented on the
character list so that concrete inputs evaluate by reduction. -/
def pyStrip (s : String) : String :=
  String.mk
    (((s.data.dropWhile Char.isWhitespace).reverse.dropWhile
        Char.isWhitespace).reverse)

/-- The form fields read by `admin_register` (`request.form.get(..., "")`). -/
structure RegisterForm where
  username : String
  password : String
  full_name : String
  email : String
  phone : String
  deriving Repr, DecidableEq

/-- The body of the `admin_register` route handler: reject when a required
field is empty after stripping or the username is taken (flash + redirect,
no write); otherwise insert a `users` row with `role = 'admin'` and
`approved = 0`, then create the license rows for the new id.
(`pyStrip` stands for Python `str.strip()`.) -/
def admin_register (form : RegisterForm) (db : DB) : DB :=
  let username := pyStrip form.username
  let password := form.password
  let full_name := pyStrip form.full_name
  if username == "" || password == "" || full_name == "" then db
  else if db.users.any (fun u => u.username == username) then db
  else
    let newId := db.nextUserId
    let db1 :=
      { db with
          users := db.users ++ [⟨newId, username, "admin", 0⟩],
          nextUserId := db.nextUserId + 1 }
    ensure_admin_license_rows newId db1

/-- The `WHERE` clause of the two queries in `fetch_questions_for_student`,
including the `JOIN users u ON u.id = q.student_id` (a question whose author
row is gone is excluded by the join): public questions only when no student id
is given, public-or-own otherwise. -/
def questionVisible (db : DB) (studentId : Option Nat) (q : QuestionRow) :
    Bool :=
  db.users.any (fun u => u.id == q.student_id) &&
    (match studentId with
     | none => q.is_public == 1
     | some sid => q.is_public == 1 || q.student_id == sid)

/-- The question list built by `fetch_questions_for_student(student_id)`:
the filtered join, ordered by `created_at DESC`.  (The joined display columns
`student_name` / `student_username` and the accompanying answer map are not
modelled; the claims concern which question rows appear.) -/
def fetch_questions_for_student (studentId : Option Nat) (db : DB) :
    List QuestionRow :=
  (db.questions.filter (questionVisible db studentId)).mergeSort
    (fun a b => decide (b.created_at ≤ a.created_at))

/-- Digit run of a Python integer literal: decimal digits with single
underscores allowed between digits (`int("1_0") = 10`, `int("1__0")` and
`int("_1")` raise). -/
def parseDigitsCore : List Char → Nat → Option Nat
  | [], acc => some acc
  | c :: cs, acc =>
      if c.isDigit then parseDigitsCore cs (acc * 10 + (c.toNat - 48))
      else if c == '_' then
        match cs with
        | c2 :: _ => if c2.isDigit then parseDigitsCore cs acc else none
        | [] => none
      else none

/-- A nonempty digit run starting with a digit. -/
def parseDigits (cs : List Char) : Option Nat :=
  match cs with
  | [] => none
  | c :: _ => if c.isDigit then parseDigitsCore cs 0 else none

/-- Python `int(s)` for a string `s`: strip surrounding whitespace, optional
sign, digit run; `none` when `int()` would raise `ValueError`.  (Scoped to
ASCII digits/whitespace, which covers every value the claims quantify over:
the conclusion below holds for every parse result.) -/
def pythonIntOfString (s : String) : Option Int :=
  match (pyStrip s).data with
  | '-' :: rest => (parseDigits rest).map (fun n => -(n : Int))
  | '+' :: rest => (parseDigits rest).map (fun n => (n : Int))
  | cs => (parseDigits cs).map (fun n => (n : Int))

/-- `as_int(value, default)` from `app.py`: `int(value)` with the default on
`TypeError` (missing form field) or `ValueError` (non-numeric text). -/
def as_int (value : Option String) (default : Int) : Int :=
  match value with
  | none => default
  | some s => (pythonIntOfString s).getD default

/-- A submitted form, as the partial map `request.form.get`. -/
def Form : Type := String → Option String

/-- The `POST` body of the `tutoring_assignments` route handler (student
submission upsert): parse and clamp `progress` to `[0, 100]`, derive
`status`, and when the referenced assignment exists run the
`INSERT ... ON CONFLICT(assignment_id, student_id) DO UPDATE` upsert. -/
def tutoring_assignments_post (form : Form) (studentId : Nat) (db : DB) :
    DB :=
  let assignment_id := as_int (form "assignment_id") 0
  let content := pyStrip ((form "content").getD "")
  let progress := max 0 (min 100 (as_int (form "progress") 0))
  let status := if progress ≥ 100 then "completed" else "in-progress"
  if db.assignments.contains assignment_id then
    if db.assignment_submissions.any
        (fun s => s.assignment_id == assignment_id &&
          s.student_id == studentId) then
      { db with
          assignment_submissions :=
            db.assignment_submissions.map
              (fun s =>
                if s.assignment_id == assignment_id &&
                    s.student_id == studentId then
                  { s with content := content, progress := progress,
                           status := status }
                else s) }
    else
      { db with
          assignment_submissions :=
            db.assignment_submissions ++
              [⟨db.nextSubmissionId, assignment_id, studentId, content,
                 progress, status⟩],
          nextSubmissionId := db.nextSubmissionId + 1 }
  else db

/-- The `update_submission` branch of the `admin_assignments` route handler:
parse and clamp `progress`, default `status` to `"in-progress"`, and when the
submission exists update its row.  (The subsequent `log_admin_action` call is
modelled separately and does not touch `assignment_submissions`.) -/
def admin_assignments_update_submission (form : Form) (db : DB) : DB :=
  let submission_id := as_int (form "submission_id") 0
  let progress := max 0 (min 100 (as_int (form "progress") 0))
  let status :=
    let s := pyStrip ((form "status").getD "")
    if s == "" then "in-progress" else s
  if db.assignment_submissions.any (fun s => s.id == submission_id) then
    { db with
        assignment_submissions :=
          db.assignment_submissions.map
            (fun s =>
              if s.id == submission_id then
                { s with progress := progress, status := status }
              else s) }
  else db

/-- A minimal autoincrement table with one `UNIQUE` text column, used to
compare the `lastrowid` semantics the persistence adapter exposes over the
two backends. -/
structure SimpleTable where
  rows : List (Nat × String)
  nextId : Nat
  deriving Repr, DecidableEq

/-- Whether the unique key is already present. -/
def tableHasKey (t : SimpleTable) (key : String) : Bool :=
  t.rows.any (fun r => r.2 == key)

/-- Insert a row, returning the generated identifier. -/
def tableInsert (t : SimpleTable) (key : String) : SimpleTable × Nat :=
  ({ rows := t.rows ++ [(t.nextId, key)], nextId := t.nextId + 1 }, t.nextId)

/-- A SQLite connection: the table plus the connection-level
`sqlite3_last_insert_rowid()` side channel (`0` before any insert), which
Python exposes as `cursor.lastrowid` after an `INSERT`.  A conflict-ignored
`INSERT OR IGNORE` leaves the side channel unchanged (documented SQLite
behaviour), so the reported `lastrowid` is then the id of the connection's
previous successful insert. -/
structure SqliteConn where
  table : SimpleTable
  lastInsertRowid : Nat
  deriving Repr, DecidableEq

/-- The embedded backend executing
`INSERT OR IGNORE INTO t (k) VALUES (?)` and reporting `cursor.lastrowid`. -/
def sqlite_insert_or_ignore (conn : SqliteConn) (key : String) :
    SqliteConn × Option Nat :=
  if tableHasKey conn.table key then (conn, some conn.lastInsertRowid)
  else
    let (t, newId) := tableInsert conn.table key
    ({ table := t, lastInsertRowid := newId }, some newId)

/-- The embedded backend executing a plain `INSERT`: a unique-key conflict
raises (modelled as `none`); on success `cursor.lastrowid` is the new id. -/
def sqlite_insert (conn : SqliteConn) (key : String) :
    Option (SqliteConn × Option Nat) :=
  if tableHasKey conn.table key then none
  else
    let (t, newId) := tableInsert conn.table key
    some ({ table := t, lastInsertRowid := newId }, some newId)

/-- The `lastrowid` extraction of `PostgresConnectionWrapper.execute` on an
insert rewritten with `RETURNING id`:
`row = cursor.fetchone(); lastrowid = None; if row is not None: lastrowid =
row[0]`. -/
def pgExtractLastrowid (returned : List Nat) : Option Nat := returned.head?

/-- The server backend executing the same conflict-tolerant insert after
`_adapt_query_for_postgres` rewrote it to
`INSERT ... ON CONFLICT DO NOTHING RETURNING id`: on conflict nothing is
inserted and `RETURNING` produces no row, so the extracted `lastrowid` is
`none`. -/
def postgres_insert_or_ignore (t : SimpleTable) (key : String) :
    SimpleTable × Option Nat :=
  if tableHasKey t key then (t, pgExtractLastrowid [])
  else
    let (t2, newId) := tableInsert t key
    (t2, pgExtractLastrowid [newId])

/-- The server backend executing a plain `INSERT ... RETURNING id`: a
unique-key conflict raises (modelled as `none`); on success the extracted
`lastrowid` is the returned id. -/
def postgres_insert (t : SimpleTable) (key : String) :
    Option (SimpleTable × Option Nat) :=
  if tableHasKey t key then none
  else
    let (t2, newId) := tableInsert t key
    some (t2, pgExtractLastrowid [newId])

/-- The `(admin_id, menu_key)` uniqueness invariant of the `admin_licenses`
table (the `UNIQUE (admin_id, menu_key)` constraint). -/
def licUnique (rows : List LicenseRow) : Prop :=
  rows.Pairwise (fun r1 r2 => r1.admin_id ≠ r2.admin_id ∨ r1.menu_key ≠ r2.menu_key)

instance (rows : List LicenseRow) : Decidable (licUnique rows) := by
  unfold licUnique
  exact List.instDecidablePairwise rows

/-- Whether a license row with the given unique key exists. -/
def hasLicenseRow (db : DB) (adminId : Nat) (menuKey : String) : Bool :=
  db.admin_licenses.any
    (fun r => r.admin_id == adminId && r.menu_key == menuKey)

/-- Number of stored license rows with the given unique key. -/
def countLicenseRows (db : DB) (adminId : Nat) (menuKey : String) : Nat :=
  (db.admin_licenses.filter
    (fun r => r.admin_id == adminId && r.menu_key == menuKey)).length

/-! ### Concrete fixtures (used to evaluate the theorems on closed inputs) -/

/-- Fixture: a database whose only user is the seeded super admin, stored
with approval flag 0 and no license rows, exercising the
approval/license-independence of the super-admin rule. -/
def dbSuperFixture : DB :=
  { users := [⟨1, "masteradmin", "super_admin", 0⟩],
    admin_licenses := [], questions := [], assignments := [],
    assignment_submissions := [], audit_logs := [],
    nextUserId := 2, nextLicenseId := 1, nextAuditId := 1,
    nextSubmissionId := 1 }

/-- Fixture: a fresh request logged in as the super admin. -/
def stSuperFixture : ReqState :=
  { db := dbSuperFixture, sessionAdminId := some 1, gAdminUser := none,
    gLicenseCache := [] }

/-- Fixture: an unapproved admin (id 2) whose qna license is enabled. -/
def dbPendingFixture : DB :=
  { users := [⟨2, "helper", "admin", 0⟩],
    admin_licenses := [⟨1, 2, "qna", 1⟩], questions := [],
    assignments := [], assignment_submissions := [], audit_logs := [],
    nextUserId := 3, nextLicenseId := 2, nextAuditId := 1,
    nextSubmissionId := 1 }

/-- Fixture: a fresh request logged in as the unapproved admin. -/
def stPendingFixture : ReqState :=
  { db := dbPendingFixture, sessionAdminId := some 2, gAdminUser := none,
    gLicenseCache := [] }

/-- Fixture: an approved admin (id 3) with qna enabled and scores disabled. -/
def dbApprovedFixture : DB :=
  { users := [⟨3, "tutor", "admin", 1⟩],
    admin_licenses := [⟨1, 3, "qna", 1⟩, ⟨2, 3, "scores", 0⟩],
    questions := [], assignments := [], assignment_submissions := [],
    audit_logs := [], nextUserId := 4, nextLicenseId := 3, nextAuditId := 1,
    nextSubmissionId := 1 }

/-- Fixture: a fresh request logged in as the approved admin. -/
def stApprovedFixture : ReqState :=
  { db := dbApprovedFixture, sessionAdminId := some 3, gAdminUser := none,
    gLicenseCache := [] }

/-- Fixture: a request with no session identity. -/
def stAnonFixture : ReqState :=
  { db := dbApprovedFixture, sessionAdminId := none, gAdminUser := none,
    gLicenseCache := [] }

/-- Fixture: two students; student 10 has a private question, student 11 a
public one. -/
def dbQuestionsFixture : DB :=
  { users := [⟨10, "s1", "student", 1⟩, ⟨11, "s2", "student", 1⟩],
    admin_licenses := [],
    questions := [⟨1, 10, 0, "2024-01-01 10:00:00"⟩,
                  ⟨2, 11, 1, "2024-01-02 10:00:00"⟩],
    assignments := [], assignment_submissions := [], audit_logs := [],
    nextUserId := 12, nextLicenseId := 1, nextAuditId := 1,
    nextSubmissionId := 1 }

/-- Fixture: an empty database. -/
def dbEmptyFixture : DB :=
  { users := [], admin_licenses := [], questions := [], assignments := [],
    assignment_submissions := [], audit_logs := [],
    nextUserId := 1, nextLicenseId := 1, nextAuditId := 1,
    nextSubmissionId := 1 }

/-- Fixture: a registration form for a new admin. -/
def registerFormFixture : RegisterForm :=
  ⟨"newadmin", "pw123", "New Admin", "", ""⟩

/-- Fixture: one assignment (id 5) and one submission by student 10. -/
def dbSubsFixture : DB :=
  { users := [⟨10, "s1", "student", 1⟩], admin_licenses := [],
    questions := [], assignments := [5],
    assignment_submissions := [⟨1, 5, 10, "", 40, "in-progress"⟩],
    audit_logs := [], nextUserId := 11, nextLicenseId := 1,
    nextAuditId := 1, nextSubmissionId := 2 }

/-- Fixture: a form whose progress field is far out of range. -/
def formGarbage : Form := fun key =>
  if key == "progress" then some "999999"
  else if key == "assignment_id" then some "5"
  else if key == "submission_id" then some "1"
  else none

/-- Fixture: a SQLite connection/table that already holds the key "dup"
(generated id 1), after a successful insert. -/
def connFixture : SqliteConn := ⟨⟨[(1, "dup")], 2⟩, 1⟩

/-- Fixture: a SQLite connection on an empty table, before any insert. -/
def emptyConnFixture : SqliteConn := ⟨⟨[], 1⟩, 0⟩

/-! ### Supporting lemmas -/

theorem get_admin_user_state (st : ReqState) :
    (get_admin_user st).2.db = st.db ∧
    (get_admin_user st).2.gLicenseCache = st.gLicenseCache := by
  unfold get_admin_user
  cases h : st.gAdminUser with
  | some cached => simp
  | none =>
      cases hs : st.sessionAdminId with
      | none => simp
      | some adminId => simp

theorem log_admin_action_cache_eq (menuKey actionType targetType : String)
    (targetId : Option Int) (detail : String) (st : ReqState) :
    (log_admin_action menuKey actionType targetType targetId detail
        st).gLicenseCache = st.gLicenseCache := by
  unfold log_admin_action
  rcases hp : get_admin_user st with ⟨a?, st1⟩
  have hst := get_admin_user_state st
  rw [hp] at hst
  cases a? with
  | none => exact show st1.gLicenseCache = st.gLicenseCache from hst.2
  | some a => exact show st1.gLicenseCache = st.gLicenseCache from hst.2

theorem log_admin_action_rows_eq (menuKey actionType targetType : String)
    (targetId : Option Int) (detail : String) (st : ReqState) :
    (log_admin_action menuKey actionType targetType targetId detail
        st).db.admin_licenses = st.db.admin_licenses := by
  unfold log_admin_action
  rcases hp : get_admin_user st with ⟨a?, st1⟩
  have hst := get_admin_user_state st
  rw [hp] at hst
  cases a? with
  | none =>
      exact show st1.db.admin_licenses = st.db.admin_licenses from
        by rw [show st1.db = st.db from hst.1]
  | some a =>
      exact show st1.db.admin_licenses = st.db.admin_licenses from
        by rw [show st1.db = st.db from hst.1]

theorem lookup_filter_ne {α : Type} (l : List (Nat × α)) (t b : Nat) :
    (l.filter (fun e => e.1 != t)).lookup b =
      if b = t then none else l.lookup b := by
  induction l with
  | nil => simp [List.lookup]
  | cons hd tl ih =>
      rcases hd with ⟨k, v⟩
      by_cases hkt : k = t
      · subst hkt
        have h1 : ((k, v).1 != k) = false := by simp
        by_cases hbk : b = k
        · subst hbk
          simp [List.filter_cons, h1, ih]
        · have h2 : (b == k) = false := by simp [hbk]
          simp [List.filter_cons, h1, ih, List.lookup, h2]
      · have h1 : ((k, v).1 != t) = true := by simp [hkt]
        by_cases hbk : b = k
        · subst hbk
          simp [List.filter_cons, h1, List.lookup, hkt]
        · have h2 : (b == k) = false := by simp [hbk]
          simp [List.filter_cons, h1, List.lookup, h2, ih]

theorem lookup_licenseMapOfList_eq_some (rows : List LicenseRow) (a : Nat)
    (k : String) (e : Int)
    (hex : ∃ r ∈ rows, r.admin_id = a ∧ r.menu_key = k)
    (hall : ∀ r ∈ rows, r.admin_id = a → r.menu_key = k → r.is_enabled = e) :
    (licenseMapOfList rows a).lookup k = some e := by
  induction rows with
  | nil => rcases hex with ⟨r, hr, _⟩; cases hr
  | cons r rows ih =>
      by_cases hadm : r.admin_id = a
      · by_cases hkey : r.menu_key = k
        · have hre : r.is_enabled = e := hall r (by simp) hadm hkey
          simp [licenseMapOfList, List.filter_cons, hadm, List.lookup, hkey,
            hre]
        · have hex' : ∃ r' ∈ rows, r'.admin_id = a ∧ r'.menu_key = k := by
            rcases hex with ⟨r', hr', ha', hk'⟩
            rcases List.mem_cons.mp hr' with h | h
            · exact absurd hk' (h ▸ hkey)
            · exact ⟨r', h, ha', hk'⟩
          have hall' : ∀ r' ∈ rows, r'.admin_id = a → r'.menu_key = k →
              r'.is_enabled = e :=
            fun x hx => hall x (List.mem_cons_of_mem _ hx)
          have hkey' : ¬ k = r.menu_key := fun hh => hkey hh.symm
          have hkb : (k == r.menu_key) = false := by simp [hkey']
          simpa [licenseMapOfList, List.filter_cons, hadm, List.lookup, hkb]
            using ih hex' hall'
      · have hex' : ∃ r' ∈ rows, r'.admin_id = a ∧ r'.menu_key = k := by
          rcases hex with ⟨r', hr', ha', hk'⟩
          rcases List.mem_cons.mp hr' with h | h
          · exact absurd ha' (h ▸ hadm)
          · exact ⟨r', h, ha', hk'⟩
        have hall' : ∀ r' ∈ rows, r'.admin_id = a → r'.menu_key = k →
            r'.is_enabled = e :=
          fun x hx => hall x (List.mem_cons_of_mem _ hx)
        have hab : (r.admin_id == a) = false := by simp [hadm]
        simpa [licenseMapOfList, List.filter_cons, hab]
          using ih hex' hall'

theorem lookup_licenseMapOfList_enabled_iff (rows : List LicenseRow)
    (a : Nat) (k : String) (h : licUnique rows) :
    ((licenseMapOfList rows a).lookup k).getD 0 = 1 ↔
      ∃ r ∈ rows, r.admin_id = a ∧ r.menu_key = k ∧ r.is_enabled = 1 := by
  induction rows with
  | nil => simp [licenseMapOfList, List.lookup]
  | cons r rows ih =>
      have hpair := List.pairwise_cons.mp h
      have ih' := ih hpair.2
      by_cases hadm : r.admin_id = a
      · by_cases hkey : r.menu_key = k
        · constructor
          · intro hv
            refine ⟨r, by simp, hadm, hkey, ?_⟩
            simpa [licenseMapOfList, List.filter_cons, hadm, List.lookup,
              hkey] using hv
          · intro hx
            rcases hx with ⟨r', hr', ha', hk', he'⟩
            rcases List.mem_cons.mp hr' with hh | hh
            · subst hh
              simp [licenseMapOfList, List.filter_cons, hadm, List.lookup,
                hkey, he']
            · exact absurd (hpair.1 r' hh)
                (by simp [hadm, ha', hkey, hk'])
        · have hkey' : ¬ k = r.menu_key := fun hh => hkey hh.symm
          have hkb : (k == r.menu_key) = false := by simp [hkey']
          rw [show ((licenseMapOfList (r :: rows) a).lookup k) =
              ((licenseMapOfList rows a).lookup k) by
            simp [licenseMapOfList, List.filter_cons, hadm, List.lookup, hkb]]
          rw [ih']
          constructor
          · rintro ⟨r', hr', props⟩
            exact ⟨r', List.mem_cons_of_mem _ hr', props⟩
          · rintro ⟨r', hr', ha', hk', he'⟩
            rcases List.mem_cons.mp hr' with hh | hh
            · exact absurd hk' (hh ▸ hkey)
            · exact ⟨r', hh, ha', hk', he'⟩
      · have hab : (r.admin_id == a) = false := by simp [hadm]
        rw [show ((licenseMapOfList (r :: rows) a).lookup k) =
            ((licenseMapOfList rows a).lookup k) by
          simp [licenseMapOfList, List.filter_cons, hab]]
        rw [ih']
        constructor
        · rintro ⟨r', hr', props⟩
          exact ⟨r', List.mem_cons_of_mem _ hr', props⟩
        · rintro ⟨r', hr', ha', hk', he'⟩
          rcases List.mem_cons.mp hr' with hh | hh
          · exact absurd ha' (hh ▸ hadm)
          · exact ⟨r', hh, ha', hk', he'⟩

theorem insert_users_eq (a : Nat) (k : String) (db : DB) :
    (insertLicenseIfAbsent a k db).users = db.users := by
  unfold insertLicenseIfAbsent
  split <;> rfl

theorem ensure_users_eq (a : Nat) (menus : List (String × String)) (db : DB) :
    (menus.foldl (fun acc p => insertLicenseIfAbsent a p.1 acc) db).users =
      db.users := by
  induction menus generalizing db with
  | nil => rfl
  | cons p rest ih => rw [List.foldl_cons, ih, insert_users_eq]

theorem insert_rows_cases {r : LicenseRow} (a : Nat) (k : String) (db : DB)
    (h : r ∈ (insertLicenseIfAbsent a k db).admin_licenses) :
    r ∈ db.admin_licenses ∨
      (r.admin_id = a ∧ r.menu_key = k ∧ r.is_enabled = 0) := by
  unfold insertLicenseIfAbsent at h
  split at h
  · exact Or.inl h
  · rcases List.mem_append.mp h with h1 | h1
    · exact Or.inl h1
    · right
      simp only [List.mem_singleton] at h1
      subst h1
      exact ⟨rfl, rfl, rfl⟩

theorem fold_rows_cases {r : LicenseRow} (a : Nat)
    (menus : List (String × String)) (db : DB)
    (h : r ∈ (menus.foldl
        (fun acc p => insertLicenseIfAbsent a p.1 acc) db).admin_licenses) :
    r ∈ db.admin_licenses ∨ (r.admin_id = a ∧ r.is_enabled = 0) := by
  induction menus generalizing db with
  | nil => exact Or.inl h
  | cons p rest ih =>
      rw [List.foldl_cons] at h
      rcases ih _ h with h1 | h1
      · rcases insert_rows_cases a p.1 db h1 with h2 | h2
        · exact Or.inl h2
        · exact Or.inr ⟨h2.1, h2.2.2⟩
      · exact Or.inr h1

theorem insert_hasRow_self (a : Nat) (k : String) (db : DB) :
    hasLicenseRow (insertLicenseIfAbsent a k db) a k = true := by
  unfold insertLicenseIfAbsent hasLicenseRow
  split
  case isTrue h => exact h
  case isFalse h => simp

theorem insert_hasRow_mono (a' : Nat) (k' : String) (a : Nat) (k : String)
    (db : DB) (h : hasLicenseRow db a k = true) :
    hasLicenseRow (insertLicenseIfAbsent a' k' db) a k = true := by
  unfold insertLicenseIfAbsent
  split
  · exact h
  · unfold hasLicenseRow at h ⊢
    simp only [List.any_append, h, Bool.true_or]

theorem fold_hasRow_mono (a' : Nat) (menus : List (String × String))
    (db : DB) (a : Nat) (k : String) (h : hasLicenseRow db a k = true) :
    hasLicenseRow
      (menus.foldl (fun acc p => insertLicenseIfAbsent a' p.1 acc) db)
      a k = true := by
  induction menus generalizing db with
  | nil => exact h
  | cons p rest ih =>
      rw [List.foldl_cons]
      exact ih _ (insert_hasRow_mono a' p.1 a k db h)

theorem fold_hasRow_of_mem (a : Nat) (menus : List (String × String))
    (db : DB) (k : String) (hk : k ∈ menus.map Prod.fst) :
    hasLicenseRow
      (menus.foldl (fun acc p => insertLicenseIfAbsent a p.1 acc) db)
      a k = true := by
  induction menus generalizing db with
  | nil => simp at hk
  | cons p rest ih =>
      rw [List.foldl_cons]
      rw [List.map_cons] at hk
      rcases List.mem_cons.mp hk with h | h
      · subst h
        exact fold_hasRow_mono a rest _ a p.1 (insert_hasRow_self a p.1 db)
      · exact ih (insertLicenseIfAbsent a p.1 db) h

theorem insert_of_hasRow (a : Nat) (k : String) (db : DB)
    (h : hasLicenseRow db a k = true) : insertLicenseIfAbsent a k db = db := by
  unfold insertLicenseIfAbsent
  unfold hasLicenseRow at h
  simp [h]

theorem fold_id_of_all_present (a : Nat) (menus : List (String × String))
    (db : DB)
    (h : ∀ k ∈ menus.map Prod.fst, hasLicenseRow db a k = true) :
    menus.foldl (fun acc p => insertLicenseIfAbsent a p.1 acc) db = db := by
  induction menus with
  | nil => rfl
  | cons p rest ih =>
      rw [List.foldl_cons, insert_of_hasRow a p.1 db (h p.1 (by simp))]
      exact ih (fun k hk => h k (by simp [hk]))

theorem hasRow_iff_exists (db : DB) (a : Nat) (k : String) :
    hasLicenseRow db a k = true ↔
      ∃ r ∈ db.admin_licenses, r.admin_id = a ∧ r.menu_key = k := by
  unfold hasLicenseRow
  simp [List.any_eq_true]

theorem hasRow_false_iff_count_zero (db : DB) (a : Nat) (k : String) :
    hasLicenseRow db a k = false ↔ countLicenseRows db a k = 0 := by
  unfold hasLicenseRow countLicenseRows
  simp [List.any_eq_false, List.length_eq_zero, List.filter_eq_nil_iff]

theorem count_insert_of_absent (a : Nat) (k : String) (db : DB)
    (h : hasLicenseRow db a k = false) :
    countLicenseRows (insertLicenseIfAbsent a k db) a k =
      countLicenseRows db a k + 1 := by
  unfold insertLicenseIfAbsent
  unfold hasLicenseRow at h
  simp only [h, Bool.false_eq_true, if_false]
  unfold countLicenseRows
  simp [List.filter_append]

theorem count_insert_other (a : Nat) (k : String) (a' : Nat) (k' : String)
    (db : DB) (h : ¬(a = a' ∧ k = k')) :
    countLicenseRows (insertLicenseIfAbsent a k db) a' k' =
      countLicenseRows db a' k' := by
  unfold insertLicenseIfAbsent
  split
  · rfl
  · unfold countLicenseRows
    have hrow : ((⟨db.nextLicenseId, a, k, 0⟩ : LicenseRow).admin_id == a' &&
        (⟨db.nextLicenseId, a, k, 0⟩ : LicenseRow).menu_key == k') = false := by
      by_cases ha : a = a'
      · have hk : ¬ k = k' := fun hh => h ⟨ha, hh⟩
        simp [hk]
      · simp [ha]
    simp [List.filter_append, hrow]

theorem count_le_one_of_licUnique (db : DB)
    (h : licUnique db.admin_licenses) (a : Nat) (k : String) :
    countLicenseRows db a k ≤ 1 := by
  unfold countLicenseRows
  have hsub : (db.admin_licenses.filter
      (fun r => r.admin_id == a && r.menu_key == k)).Sublist
      db.admin_licenses := List.filter_sublist _
  have hpw := List.Pairwise.sublist hsub h
  rcases hf : db.admin_licenses.filter
      (fun r => r.admin_id == a && r.menu_key == k) with _ | ⟨x, _ | ⟨y, tl⟩⟩
  · rw [hf]; simp
  · rw [hf]; simp
  · exfalso
    rw [hf] at hpw
    have hxy := (List.pairwise_cons.mp hpw).1 y (by simp)
    have hx : x ∈ db.admin_licenses.filter
        (fun r => r.admin_id == a && r.menu_key == k) := by rw [hf]; simp
    have hy : y ∈ db.admin_licenses.filter
        (fun r => r.admin_id == a && r.menu_key == k) := by rw [hf]; simp
    have hxp := List.of_mem_filter hx
    have hyp := List.of_mem_filter hy
    simp only [Bool.and_eq_true, beq_iff_eq] at hxp hyp
    rcases hxy with hne | hne
    · exact hne (hxp.1.trans hyp.1.symm)
    · exact hne (hxp.2.trans hyp.2.symm)

theorem fold_count_notmem (a : Nat) (menus : List (String × String))
    (db : DB) (a' : Nat) (k' : String)
    (h : ∀ p ∈ menus, ¬(a = a' ∧ p.1 = k')) :
    countLicenseRows
        (menus.foldl (fun acc p => insertLicenseIfAbsent a p.1 acc) db)
        a' k' = countLicenseRows db a' k' := by
  induction menus generalizing db with
  | nil => rfl
  | cons p rest ih =>
      rw [List.foldl_cons, ih _ (fun q hq => h q (by simp [hq])),
        count_insert_other a p.1 a' k' db (h p (by simp))]

theorem fold_count_mem (a : Nat) (menus : List (String × String)) (db : DB)
    (k : String) (hnd : (menus.map Prod.fst).Nodup)
    (hk : k ∈ menus.map Prod.fst) (hle : countLicenseRows db a k ≤ 1) :
    countLicenseRows
        (menus.foldl (fun acc p => insertLicenseIfAbsent a p.1 acc) db)
        a k = 1 := by
  induction menus generalizing db with
  | nil => simp at hk
  | cons p rest ih =>
      rw [List.map_cons] at hnd hk
      have hnd' := List.nodup_cons.mp hnd
      rw [List.foldl_cons]
      by_cases hkp : k = p.1
      · subst hkp
        have hrest : ∀ q ∈ rest, ¬(a = a ∧ q.1 = p.1) := by
          intro q hq hcon
          exact hnd'.1 (by
            rw [← hcon.2]
            exact List.mem_map_of_mem Prod.fst hq)
        rw [fold_count_notmem a rest _ a p.1 hrest]
        by_cases hr : hasLicenseRow db a p.1 = true
        · rw [insert_of_hasRow a p.1 db hr]
          have h0 : countLicenseRows db a p.1 ≠ 0 := by
            intro hc
            rw [← hasRow_false_iff_count_zero] at hc
            rw [hr] at hc
            exact Bool.noConfusion hc
          omega
        · have hr' : hasLicenseRow db a p.1 = false :=
            Bool.eq_false_iff.mpr (fun hh => hr hh)
          rw [count_insert_of_absent a p.1 db hr',
            (hasRow_false_iff_count_zero db a p.1).mp hr']
      · have hk' : k ∈ rest.map Prod.fst := by
          rcases List.mem_cons.mp hk with h | h
          · exact absurd h hkp
          · exact h
        have hle' : countLicenseRows (insertLicenseIfAbsent a p.1 db) a k ≤
            1 := by
          rw [count_insert_other a p.1 a k db (fun hc => hkp hc.2.symm)]
          exact hle
        exact ih (insertLicenseIfAbsent a p.1 db) hnd'.2 hk' hle'

theorem sqlUpdate_establishes (t : Nat) (k : String) (e : Int) (db : DB) :
    ∀ r ∈ (sqlUpdateLicense t k e db).admin_licenses,
      r.admin_id = t → r.menu_key = k → r.is_enabled = e := by
  intro r hr ha hk
  unfold sqlUpdateLicense at hr
  rcases List.mem_map.mp hr with ⟨r0, hr0, heq⟩
  by_cases hc : (r0.admin_id == t && r0.menu_key == k) = true
  · rw [if_pos hc] at heq
    rw [← heq]
  · rw [if_neg hc] at heq
    subst heq
    exact absurd (by simp [ha, hk]) hc

theorem sqlUpdate_preserves_value (t : Nat) (k' : String) (e' : Int)
    (db : DB) (k : String) (e : Int) (hne : ¬ k' = k)
    (hP : ∀ r ∈ db.admin_licenses,
        r.admin_id = t → r.menu_key = k → r.is_enabled = e) :
    ∀ r ∈ (sqlUpdateLicense t k' e' db).admin_licenses,
      r.admin_id = t → r.menu_key = k → r.is_enabled = e := by
  intro r hr ha hk
  unfold sqlUpdateLicense at hr
  rcases List.mem_map.mp hr with ⟨r0, hr0, heq⟩
  by_cases hc : (r0.admin_id == t && r0.menu_key == k') = true
  · exfalso
    apply hne
    rw [if_pos hc] at heq
    have hm : r.menu_key = r0.menu_key := by rw [← heq]
    rcases (by simpa using hc : r0.admin_id = t ∧ r0.menu_key = k') with
      ⟨hct, hck⟩
    rw [← hck, ← hm]
    exact hk
  · rw [if_neg hc] at heq
    subst heq
    exact hP r0 hr0 ha hk

theorem sqlUpdate_preserves_hasRow (t : Nat) (k' : String) (e' : Int)
    (db : DB) (a : Nat) (k : String) (h : hasLicenseRow db a k = true) :
    hasLicenseRow (sqlUpdateLicense t k' e' db) a k = true := by
  rw [hasRow_iff_exists] at h ⊢
  rcases h with ⟨r, hr, ha, hk⟩
  refine ⟨(fun r =>
      if r.admin_id == t && r.menu_key == k' then { r with is_enabled := e' }
      else r) r, List.mem_map_of_mem _ hr, ?_⟩
  by_cases hc : (r.admin_id == t && r.menu_key == k') = true
  · simp only [if_pos hc]
    exact ⟨ha, hk⟩
  · simp only [if_neg hc]
    exact ⟨ha, hk⟩

theorem foldUpdate_preserves_hasRow (t : Nat) (f : String → Bool)
    (menus : List (String × String)) (db : DB) (a : Nat) (k : String)
    (h : hasLicenseRow db a k = true) :
    hasLicenseRow
      (menus.foldl
        (fun acc p => sqlUpdateLicense t p.1 (if f p.1 then 1 else 0) acc)
        db) a k = true := by
  induction menus generalizing db with
  | nil => exact h
  | cons p rest ih =>
      rw [List.foldl_cons]
      exact ih _ (sqlUpdate_preserves_hasRow t p.1 _ db a k h)

theorem foldUpdate_preserves_value (t : Nat) (f : String → Bool)
    (menus : List (String × String)) (db : DB) (k : String) (e : Int)
    (hni : k ∉ menus.map Prod.fst)
    (hP : ∀ r ∈ db.admin_licenses,
        r.admin_id = t → r.menu_key = k → r.is_enabled = e) :
    ∀ r ∈ (menus.foldl
        (fun acc p => sqlUpdateLicense t p.1 (if f p.1 then 1 else 0) acc)
        db).admin_licenses,
      r.admin_id = t → r.menu_key = k → r.is_enabled = e := by
  induction menus generalizing db with
  | nil => exact hP
  | cons p rest ih =>
      rw [List.map_cons] at hni
      rw [List.foldl_cons]
      have hni' : k ∉ rest.map Prod.fst :=
        fun hh => hni (List.mem_cons_of_mem _ hh)
      have hpk : ¬ p.1 = k := by
        intro hh
        exact hni (by rw [hh]; exact List.mem_cons_self _ _)
      exact ih (sqlUpdateLicense t p.1 (if f p.1 then 1 else 0) db) hni'
        (sqlUpdate_preserves_value t p.1 _ db k e hpk hP)

theorem foldUpdate_value (t : Nat) (f : String → Bool)
    (menus : List (String × String)) (db : DB) (k : String)
    (hk : k ∈ menus.map Prod.fst) (hnd : (menus.map Prod.fst).Nodup) :
    ∀ r ∈ (menus.foldl
        (fun acc p => sqlUpdateLicense t p.1 (if f p.1 then 1 else 0) acc)
        db).admin_licenses,
      r.admin_id = t → r.menu_key = k →
        r.is_enabled = (if f k then 1 else 0) := by
  induction menus generalizing db with
  | nil => simp at hk
  | cons p rest ih =>
      rw [List.map_cons] at hk hnd
      have hnd' := List.nodup_cons.mp hnd
      rw [List.foldl_cons]
      by_cases hkp : k = p.1
      · subst hkp
        exact foldUpdate_preserves_value t f rest _ p.1 _ hnd'.1
          (sqlUpdate_establishes t p.1 _ db)
      · rcases List.mem_cons.mp hk with hh | hh
        · exact absurd hh hkp
        · exact ih (sqlUpdateLicense t p.1 (if f p.1 then 1 else 0) db) hh
            hnd'.2

theorem find?_append_left_none {α : Type} (l1 l2 : List α) (p : α → Bool)
    (h : ∀ x ∈ l1, p x = false) :
    (l1 ++ l2).find? p = l2.find? p := by
  induction l1 with
  | nil => rfl
  | cons x xs ih =>
      rw [List.cons_append, List.find?_cons, h x (by simp)]
      exact ih (fun y hy => h y (by simp [hy]))

theorem fetch_mem_iff (db : DB) (sid : Option Nat) (q : QuestionRow) :
    q ∈ fetch_questions_for_student sid db ↔
      q ∈ db.questions ∧ questionVisible db sid q = true := by
  unfold fetch_questions_for_student
  rw [List.mem_mergeSort, List.mem_filter]

theorem admin_update_account_eq (targetAdminId : Nat) (approvedOn : Bool)
    (licenseOn : String → Bool) (st : ReqState) (target : UserRow)
    (hfind : st.db.users.find?
        (fun u => u.id == targetAdminId && u.role == "admin") =
      some target) :
    admin_update_account targetAdminId approvedOn licenseOn st =
      log_admin_action "student_accounts" "license_update" "admin_account"
        (some (Int.ofNat targetAdminId))
        (target.username ++ " state:" ++
          (if approvedOn then "approved" else "pending"))
        { st with
            db := updateAllLicenses targetAdminId licenseOn
              (ensure_admin_license_rows targetAdminId
                { st.db with
                    users := st.db.users.map
                      (fun u =>
                        if u.id == targetAdminId then
                          { u with
                              approved := if approvedOn then 1 else 0 }
                        else u) }),
            gLicenseCache :=
              st.gLicenseCache.filter (fun e => e.1 != targetAdminId) } := by
  unfold admin_update_account
  rw [hfind]

theorem lookup_after_ensure_update (t : Nat) (f : String → Bool) (db0 : DB)
    (k : String) (hk : k ∈ LICENSE_MENUS.map Prod.fst) :
    ((((licenseMapOfList
        (updateAllLicenses t f
          (ensure_admin_license_rows t db0)).admin_licenses t).lookup
          k).getD 0) == 1) = f k := by
  have h1 : hasLicenseRow (ensure_admin_license_rows t db0) t k :=
    fold_hasRow_of_mem t LICENSE_MENUS db0 k hk
  have h2 : hasLicenseRow
      (updateAllLicenses t f (ensure_admin_license_rows t db0)) t k :=
    foldUpdate_preserves_hasRow t f LICENSE_MENUS
      (ensure_admin_license_rows t db0) t k h1
  have hall : ∀ r ∈ (updateAllLicenses t f
      (ensure_admin_license_rows t db0)).admin_licenses,
      r.admin_id = t → r.menu_key = k →
        r.is_enabled = (if f k then 1 else 0) :=
    foldUpdate_value t f LICENSE_MENUS (ensure_admin_license_rows t db0) k
      hk (by decide)
  have hex := (hasRow_iff_exists
    (updateAllLicenses t f (ensure_admin_license_rows t db0)) t k).mp h2
  rw [lookup_licenseMapOfList_eq_some _ _ _ _ hex hall]
  cases hcase : f k <;> simp

theorem clamp_bounds (v : Option String) :
    0 ≤ max 0 (min 100 (as_int v 0)) ∧
      max 0 (min 100 (as_int v 0)) ≤ 100 := by
  constructor <;> omega

/-! ### Claim theorems -/

/-- C1: for every resolved admin whose role is super_admin,
`admin_can_access(menuKey)` returns true (without raising) for every
menuKey, regardless of the admin's approval state and regardless of any
stored license flags (the state `st` is arbitrary, so approval and license
flags are unconstrained; the super-admin branch returns before any license
code runs). -/
theorem admin_can_access_super_admin (st : ReqState) (a : UserRow)
    (k : String) (ha : (get_admin_user st).1 = some a)
    (hrole : a.role = "super_admin") :
    admin_can_access k st = .ok (true, (get_admin_user st).2) := by
  unfold admin_can_access
  rcases hg : get_admin_user st with ⟨x, st1⟩
  rw [hg] at ha
  have hx : x = some a := ha
  subst hx
  simp [hrole]

/-- C1 witness: the seeded super admin, stored with approval flag 0 and no
license rows, can access qna. -/
theorem admin_can_access_super_admin_witness :
    admin_can_access "qna" stSuperFixture =
      .ok (true, (get_admin_user stSuperFixture).2) :=
  admin_can_access_super_admin stSuperFixture
    ⟨1, "masteradmin", "super_admin", 0⟩ "qna" (by decide) (by decide)

/-- C2: for every resolved admin with role admin whose approved flag is not
1, `admin_can_access(menuKey)` returns false (without raising) for every
menuKey, even when the stored license flag for that admin and menu is
enabled (the state is arbitrary, so license flags are unconstrained; the
unapproved branch returns before any license code runs). -/
theorem admin_can_access_unapproved_denied (st : ReqState) (a : UserRow)
    (k : String) (ha : (get_admin_user st).1 = some a)
    (hrole : a.role = "admin") (happ : a.approved ≠ 1) :
    admin_can_access k st = .ok (false, (get_admin_user st).2) := by
  unfold admin_can_access
  rcases hg : get_admin_user st with ⟨x, st1⟩
  rw [hg] at ha
  have hx : x = some a := ha
  subst hx
  simp [hrole, happ]

/-- C2 witness: the unapproved admin (id 2) is denied qna although its
stored qna license flag is 1. -/
theorem admin_can_access_unapproved_denied_witness :
    dbPendingFixture.admin_licenses = [⟨1, 2, "qna", 1⟩] ∧
    admin_can_access "qna" stPendingFixture =
      .ok (false, (get_admin_user stPendingFixture).2) :=
  ⟨by decide,
    admin_can_access_unapproved_denied stPendingFixture
      ⟨2, "helper", "admin", 0⟩ "qna" (by decide) (by decide) (by decide)⟩

/-- C3 (code bug): on the failing input — the resolved admin 3 with role
admin and approved = 1 whose stored qna license flag is enabled, in a
fresh request (empty license cache) — `admin_can_access` does not return
the stored enablement bit: reaching `has_license` on a cache miss executes
`g[cache_key] = license_map`, an item assignment on Flask's `g`, which
raises `TypeError`, so the call raises instead of returning true.  The
no-admin half of the claim does hold in the code: with no resolved admin
the function returns false before any license code runs. -/
theorem admin_can_access_approved_raises :
    (get_admin_user stApprovedFixture).1 =
      some ⟨3, "tutor", "admin", 1⟩ ∧
    dbApprovedFixture.admin_licenses =
      [⟨1, 3, "qna", 1⟩, ⟨2, 3, "scores", 0⟩] ∧
    stApprovedFixture.gLicenseCache = [] ∧
    admin_can_access "qna" stApprovedFixture = .error .typeError ∧
    admin_can_access "qna" stAnonFixture =
      .ok (false, (get_admin_user stAnonFixture).2) :=
  ⟨rfl, rfl, rfl, rfl, rfl⟩

/-- C8: the audit recorder `log_admin_action` is a no-op (returns without
inserting an audit_logs row) when no admin is resolved for the request, and
inserts exactly one committed audit_logs row with the resolved admin as
actor otherwise. -/
theorem log_admin_action_noop_without_admin :
    (∀ (st : ReqState) (mk ak tk : String) (ti : Option Int) (d : String),
        (get_admin_user st).1 = none →
        (log_admin_action mk ak tk ti d st).db.audit_logs =
          st.db.audit_logs) ∧
    (∀ (st : ReqState) (mk ak tk : String) (ti : Option Int) (d : String)
        (a : UserRow),
        (get_admin_user st).1 = some a →
        (log_admin_action mk ak tk ti d st).db.audit_logs =
          st.db.audit_logs ++
            [⟨st.db.nextAuditId, some a.id, mk, ak, tk, ti, d⟩]) := by
  constructor
  · intro st mk ak tk ti d ha
    unfold log_admin_action
    rcases hg : get_admin_user st with ⟨x, st1⟩
    have hst := get_admin_user_state st
    rw [hg] at ha hst
    have hx : x = none := ha
    subst hx
    rw [show st1.db = st.db from hst.1]
  · intro st mk ak tk ti d a ha
    unfold log_admin_action
    rcases hg : get_admin_user st with ⟨x, st1⟩
    have hst := get_admin_user_state st
    rw [hg] at ha hst
    have hx : x = some a := ha
    subst hx
    show ({ st1.db with
        audit_logs := st1.db.audit_logs ++
          [⟨st1.db.nextAuditId, some a.id, mk, ak, tk, ti, d⟩],
        nextAuditId := st1.db.nextAuditId + 1 } : DB).audit_logs = _
    rw [show st1.db = st.db from hst.1]

/-- C8 witness: with no session identity the audit table is untouched; with
the pending admin logged in exactly one row with actor id 2 is appended. -/
theorem log_admin_action_noop_without_admin_witness :
    (log_admin_action "qna" "create" "question" (some 7) "d"
        stAnonFixture).db.audit_logs = [] ∧
    (log_admin_action "qna" "create" "question" (some 7) "d"
        stPendingFixture).db.audit_logs =
      [⟨1, some 2, "qna", "create", "question", some 7, "d"⟩] := by
  constructor
  · exact log_admin_action_noop_without_admin.1 stAnonFixture
      "qna" "create" "question" (some 7) "d" (by decide)
  · exact log_admin_action_noop_without_admin.2 stPendingFixture
      "qna" "create" "question" (some 7) "d" ⟨2, "helper", "admin", 0⟩
      (by decide)

/-- C5: `ensure_admin_license_rows(adminId)` is idempotent: a second call
leaves the admin_licenses table (including every row's is_enabled value)
unchanged, and after the first call there is exactly one row per
(adminId, menuKey) for each of the five fixed menu keys, assuming the
table's UNIQUE (admin_id, menu_key) invariant on entry. -/
theorem ensure_admin_license_rows_idempotent (adminId : Nat) (db : DB)
    (h : licUnique db.admin_licenses) :
    ensure_admin_license_rows adminId
        (ensure_admin_license_rows adminId db) =
      ensure_admin_license_rows adminId db ∧
    ∀ k ∈ LICENSE_MENU_KEYS,
      countLicenseRows (ensure_admin_license_rows adminId db) adminId k =
        1 := by
  constructor
  · unfold ensure_admin_license_rows
    exact fold_id_of_all_present adminId LICENSE_MENUS _
      (fun k hk => fold_hasRow_of_mem adminId LICENSE_MENUS db k hk)
  · intro k hk
    unfold ensure_admin_license_rows
    exact fold_count_mem adminId LICENSE_MENUS db k (by decide) hk
      (count_le_one_of_licUnique db h adminId k)

/-- C5 witness: on the approved-admin fixture (admin 3 already has rows for
qna and scores) the double call equals the single call and the qna count
is 1. -/
theorem ensure_admin_license_rows_idempotent_witness :
    licUnique dbApprovedFixture.admin_licenses ∧
    ensure_admin_license_rows 3 (ensure_admin_license_rows 3
        dbApprovedFixture) = ensure_admin_license_rows 3 dbApprovedFixture ∧
    countLicenseRows (ensure_admin_license_rows 3 dbApprovedFixture) 3
      "qna" = 1 := by
  have h := ensure_admin_license_rows_idempotent 3 dbApprovedFixture
    (by decide)
  exact ⟨by decide, h.1, h.2 "qna" (by decide)⟩

/-- C9: every license row created by `ensure_admin_license_rows` carries
is_enabled = 0 and `admin_register` creates the account with role admin and
approved = 0, so a freshly registered admin (in a fresh request logged in
as that admin against the post-registration database) is denied every menu
by `admin_can_access`. -/
theorem fresh_admin_denied_all_menus (form : RegisterForm) (db : DB)
    (hu : ¬ pyStrip form.username = "") (hp : ¬ form.password = "")
    (hf : ¬ pyStrip form.full_name = "")
    (hdup : db.users.any (fun u => u.username == pyStrip form.username) =
      false)
    (hfreshU : ∀ u ∈ db.users, u.id ≠ db.nextUserId)
    (hfreshL : ∀ r ∈ db.admin_licenses, r.admin_id ≠ db.nextUserId) :
    (admin_register form db).users =
      db.users ++ [⟨db.nextUserId, pyStrip form.username, "admin", 0⟩] ∧
    (∀ r ∈ (admin_register form db).admin_licenses,
        r.admin_id = db.nextUserId → r.is_enabled = 0) ∧
    (∀ k : String,
        admin_can_access k
          { db := admin_register form db,
            sessionAdminId := some db.nextUserId, gAdminUser := none,
            gLicenseCache := [] } =
          .ok (false,
            (get_admin_user
              { db := admin_register form db,
                sessionAdminId := some db.nextUserId, gAdminUser := none,
                gLicenseCache := [] }).2)) := by
  have hcond : (pyStrip form.username == "" || form.password == "" ||
      pyStrip form.full_name == "") = false := by
    simp [hu, hp, hf]
  have hreg : admin_register form db =
      ensure_admin_license_rows db.nextUserId
        { db with
            users := db.users ++
              [⟨db.nextUserId, pyStrip form.username, "admin", 0⟩],
            nextUserId := db.nextUserId + 1 } := by
    unfold admin_register
    simp [hcond, hdup]
  refine ⟨?_, ?_, ?_⟩
  · rw [hreg]
    unfold ensure_admin_license_rows
    rw [ensure_users_eq]
  · intro r hr ha
    rw [hreg] at hr
    unfold ensure_admin_license_rows at hr
    rcases fold_rows_cases db.nextUserId LICENSE_MENUS _ hr with h1 | h1
    · exact absurd ha (hfreshL r h1)
    · exact h1.2
  · intro k
    have husers : (admin_register form db).users =
        db.users ++ [⟨db.nextUserId, pyStrip form.username, "admin", 0⟩] := by
      rw [hreg]
      unfold ensure_admin_license_rows
      rw [ensure_users_eq]
    unfold admin_can_access get_admin_user
    simp only []
    unfold findAdminUser
    rw [husers,
      find?_append_left_none _ _ _
        (fun u hu2 => by simp [hfreshU u hu2]),
      List.find?_cons]
    simp

/-- C9 witness: registering on the empty database yields an admin (id 1)
with approved 0, all-zero license flags, and no access to qna. -/
theorem fresh_admin_denied_all_menus_witness :
    (admin_register registerFormFixture dbEmptyFixture).users =
      [⟨1, "newadmin", "admin", 0⟩] ∧
    admin_can_access "qna"
      { db := admin_register registerFormFixture dbEmptyFixture,
        sessionAdminId := some 1, gAdminUser := none,
        gLicenseCache := [] } =
      .ok (false,
        (get_admin_user
          { db := admin_register registerFormFixture dbEmptyFixture,
            sessionAdminId := some 1, gAdminUser := none,
            gLicenseCache := [] }).2) := by
  have h := fresh_admin_denied_all_menus registerFormFixture dbEmptyFixture
    (by decide) (by decide) (by decide) (by decide) (by decide) (by decide)
  refine ⟨?_, h.2.2 "qna"⟩
  rw [h.1]
  decide

/-- C10: every progress value written to assignment_submissions by the
student submission handler or the admin submission-update handler lies in
[0, 100] for arbitrary (including missing or non-numeric) form input: the
input is parsed with default 0 and clamped before the write.  Stated as the
clamp bound itself plus preservation of the range invariant by both
handlers. -/
theorem submission_progress_clamped :
    (∀ v : Option String,
        0 ≤ max 0 (min 100 (as_int v 0)) ∧
          max 0 (min 100 (as_int v 0)) ≤ 100) ∧
    (∀ (form : Form) (studentId : Nat) (db : DB),
        (∀ s ∈ db.assignment_submissions,
            0 ≤ s.progress ∧ s.progress ≤ 100) →
        ∀ s ∈ (tutoring_assignments_post form studentId
            db).assignment_submissions,
          0 ≤ s.progress ∧ s.progress ≤ 100) ∧
    (∀ (form : Form) (db : DB),
        (∀ s ∈ db.assignment_submissions,
            0 ≤ s.progress ∧ s.progress ≤ 100) →
        ∀ s ∈ (admin_assignments_update_submission form
            db).assignment_submissions,
          0 ≤ s.progress ∧ s.progress ≤ 100) := by
  refine ⟨clamp_bounds, ?_, ?_⟩
  · intro form studentId db hinv s hs
    simp only [tutoring_assignments_post] at hs
    split at hs
    · split at hs
      · simp only [List.mem_map] at hs
        obtain ⟨s0, hs0, heq⟩ := hs
        subst heq
        by_cases hc : (s0.assignment_id == as_int (form "assignment_id") 0
            && s0.student_id == studentId) = true
        · rw [if_pos hc]
          exact clamp_bounds (form "progress")
        · rw [if_neg hc]
          exact hinv s0 hs0
      · simp only [List.mem_append, List.mem_singleton] at hs
        rcases hs with hs | hs
        · exact hinv s hs
        · subst hs
          exact clamp_bounds (form "progress")
    · exact hinv s hs
  · intro form db hinv s hs
    simp only [admin_assignments_update_submission] at hs
    split at hs
    · simp only [List.mem_map] at hs
      obtain ⟨s0, hs0, heq⟩ := hs
      subst heq
      by_cases hc : (s0.id == as_int (form "submission_id") 0) = true
      · rw [if_pos hc]
        exact clamp_bounds (form "progress")
      · rw [if_neg hc]
        exact hinv s0 hs0
    · exact hinv s hs

/-- C10 witness: progress input "999999" on the fixture is written as 100
(and the untouched table already satisfied the invariant). -/
theorem submission_progress_clamped_witness :
    (tutoring_assignments_post formGarbage 10
        dbSubsFixture).assignment_submissions =
      [⟨1, 5, 10, "", 100, "completed"⟩] ∧
    (0 ≤ ((⟨1, 5, 10, "", 100, "completed"⟩ :
        SubmissionRow)).progress ∧
      ((⟨1, 5, 10, "", 100, "completed"⟩ : SubmissionRow)).progress ≤
        100) := by
  refine ⟨by decide, ?_⟩
  exact submission_progress_clamped.2.1 formGarbage 10 dbSubsFixture
    (by decide) _ (by decide)

/-- C6 counterexample: executing the same conflict-tolerant insert on a key
that already exists, the embedded backend reports the stale lastrowid of
the connection's previous insert (here 1) while the server adapter reports
none, so the exposed lastInsertId values are not equal. -/
theorem lastrowid_conflict_insert_diverges :
    (sqlite_insert_or_ignore connFixture "dup").2 = some 1 ∧
    (postgres_insert_or_ignore connFixture.table "dup").2 = none ∧
    (sqlite_insert_or_ignore connFixture "dup").2 ≠
      (postgres_insert_or_ignore connFixture.table "dup").2 := by
  decide

/-- C6 amended: for every insert that actually inserts a row (plain
inserts, and conflict-tolerant inserts whose key is absent) both backends
expose the same generated identifier and reach the same table; when a
conflict-tolerant insert is a no-op, the server backend yields none while
the embedded backend yields the connection's previous lastrowid. -/
theorem lastrowid_agree_on_actual_insert :
    (∀ (conn : SqliteConn) (key : String),
        tableHasKey conn.table key = false →
        (sqlite_insert_or_ignore conn key).2 = some conn.table.nextId ∧
        (postgres_insert_or_ignore conn.table key).2 =
          some conn.table.nextId ∧
        (sqlite_insert_or_ignore conn key).1.table =
          (postgres_insert_or_ignore conn.table key).1 ∧
        (sqlite_insert conn key).map Prod.snd =
          some (some conn.table.nextId) ∧
        (postgres_insert conn.table key).map Prod.snd =
          some (some conn.table.nextId)) ∧
    (∀ (conn : SqliteConn) (key : String),
        tableHasKey conn.table key = true →
        (postgres_insert_or_ignore conn.table key).2 = none ∧
        (sqlite_insert_or_ignore conn key).2 =
          some conn.lastInsertRowid) := by
  constructor
  · intro conn key h
    unfold sqlite_insert_or_ignore postgres_insert_or_ignore sqlite_insert
      postgres_insert tableInsert pgExtractLastrowid
    simp [h]
  · intro conn key h
    unfold sqlite_insert_or_ignore postgres_insert_or_ignore
      pgExtractLastrowid
    simp [h]

/-- C6 amended witness: a fresh insert of "a" into the empty table yields
id 1 on both backends; the conflicting insert of "dup" yields none on the
server backend and the stale id 1 on the embedded one. -/
theorem lastrowid_agree_on_actual_insert_witness :
    ((sqlite_insert_or_ignore emptyConnFixture "a").2 = some 1 ∧
     (postgres_insert_or_ignore emptyConnFixture.table "a").2 = some 1) ∧
    ((postgres_insert_or_ignore connFixture.table "dup").2 = none ∧
     (sqlite_insert_or_ignore connFixture "dup").2 = some 1) := by
  have h1 := lastrowid_agree_on_actual_insert.1 emptyConnFixture "a"
    (by decide)
  have h2 := lastrowid_agree_on_actual_insert.2 connFixture "dup"
    (by decide)
  exact ⟨⟨h1.1, h1.2.1⟩, ⟨h2.1, h2.2⟩⟩

/-- C7: a student's question list contains exactly the public questions
plus that student's own questions (among questions whose author row
exists, as required by the SQL join); in particular a different student
never sees another student's private question, while its author always
does. -/
theorem fetch_questions_visibility :
    (∀ (db : DB) (sid : Nat) (q : QuestionRow),
        q ∈ fetch_questions_for_student (some sid) db ↔
          q ∈ db.questions ∧ (∃ u ∈ db.users, u.id = q.student_id) ∧
            (q.is_public = 1 ∨ q.student_id = sid)) ∧
    (∀ (db : DB) (sid2 : Nat) (q : QuestionRow),
        q.is_public = 0 → q.student_id ≠ sid2 →
        q ∉ fetch_questions_for_student (some sid2) db) ∧
    (∀ (db : DB) (S : UserRow) (q : QuestionRow),
        S ∈ db.users → q ∈ db.questions → q.student_id = S.id →
        q ∈ fetch_questions_for_student (some S.id) db) := by
  have hiff : ∀ (db : DB) (sid : Nat) (q : QuestionRow),
      q ∈ fetch_questions_for_student (some sid) db ↔
        q ∈ db.questions ∧ (∃ u ∈ db.users, u.id = q.student_id) ∧
          (q.is_public = 1 ∨ q.student_id = sid) := by
    intro db sid q
    rw [fetch_mem_iff]
    unfold questionVisible
    simp [List.any_eq_true]
  refine ⟨hiff, ?_, ?_⟩
  · intro db sid2 q hpriv hne hmem
    rcases (hiff db sid2 q).mp hmem with ⟨_, _, hvis⟩
    rcases hvis with h | h
    · rw [hpriv] at h
      exact absurd h (by decide)
    · exact hne h
  · intro db S q hS hq hid
    exact (hiff db S.id q).mpr ⟨hq, ⟨S, hS, hid.symm⟩, Or.inr hid⟩

/-- C7 witness: student 11 does not see student 10's private question,
while student 10 does. -/
theorem fetch_questions_visibility_witness :
    (⟨1, 10, 0, "2024-01-01 10:00:00"⟩ : QuestionRow) ∉
      fetch_questions_for_student (some 11) dbQuestionsFixture ∧
    (⟨1, 10, 0, "2024-01-01 10:00:00"⟩ : QuestionRow) ∈
      fetch_questions_for_student (some 10) dbQuestionsFixture := by
  constructor
  · exact fetch_questions_visibility.2.1 dbQuestionsFixture 11 _
      (by decide) (by decide)
  · exact fetch_questions_visibility.2.2 dbQuestionsFixture
      ⟨10, "s1", "student", 1⟩ _ (by decide) (by decide) (by decide)

/-- C4 (code bug): the request-scoped license cache is never populated —
the store `g[cache_key] = license_map`, an item assignment on Flask's `g`,
raises `TypeError` on every cache miss — so the first license-map read of
a request raises instead of caching (nothing is ever answered from a
cache), and after the super-admin update handler (whose `g.pop` removes a
never-present entry from the still-empty cache) the subsequent read in the
same request raises as well instead of observing the newly written
flags.  Evaluated on concrete failing inputs: a fresh read for admin 3
raises, and after `admin_update_account` enables admin 2's qna flag the
follow-up `has_license` read raises. -/
theorem license_cache_never_populated :
    stApprovedFixture.gLicenseCache = [] ∧
    get_admin_license_map 3 stApprovedFixture = .error .typeError ∧
    has_license 3 "qna" stApprovedFixture = .error .typeError ∧
    (admin_update_account 2 true (fun k => k == "qna")
        stPendingFixture).gLicenseCache = [] ∧
    has_license 2 "qna"
      (admin_update_account 2 true (fun k => k == "qna")
        stPendingFixture) = .error .typeError :=
  ⟨rfl, rfl, rfl, rfl, rfl⟩

end FirstWeb
